import Mathlib

/-!
Shallow embedding of the compression middleware in `compress.go` (package
`compress`): a response-compression interceptor that wraps an HTTP handler
and compresses eligible response bodies with gzip or deflate.

Headers are modelled as association lists of key/value pairs with the three
operations the source uses (`Get`, `Set`, `Del` of Go's `http.Header`).
The underlying `http.ResponseWriter` is modelled as a record accumulating an
event trace (header commits with a snapshot of the headers, body writes,
flushes); physical write failures are driven by an explicit error schedule so
that error-propagation behaviour can be stated and tested.  The streaming
compressor (`gzip.Writer` / `flate.Writer`) is modelled abstractly: it
accumulates its input and emits encoded bytes to its bound sink on flush and
close, where the encoding functions are parameters (`Codec`).  Go errors are
modelled as `Option String`; `errors.Wrap` becomes message prefixing, with
`wrap nil = nil` as in `github.com/pkg/errors`.
-/

/-! Header keys used by the source (the `const` block of compress.go). -/

def hdrAcceptEncoding : String := "Accept-Encoding"

def hdrContentEncoding : String := "Content-Encoding"

def hdrContentEncodingGzip : String := "gzip"

def hdrContentEncodingDeflate : String := "deflate"

def hdrContentLength : String := "Content-Length"

def hdrContentType : String := "Content-Type"

def hdrTrailer : String := "Trailer"

def hdrVary : String := "Vary"

/-- Package-level tunable `CompressMinLength` (default value 256). -/
def CompressMinLength : Int := 256

/-- Package-level tunable `CompressMaxBuf` (default value 16 * 1024). -/
def CompressMaxBuf : Int := 16 * 1024

/-- `flate.BestCompression`, the level `New` always passes. -/
def flateBestCompression : Int := 9

/-! Headers: association lists with Go `http.Header`'s Get/Set/Del.
`hGet` returns the first value for the key, or `""` when absent. -/

abbrev Header := List (String × String)

def hGet : Header → String → String
  | [], _ => ""
  | p :: t, k => if p.1 = k then p.2 else hGet t k

def hDel : Header → String → Header
  | [], _ => []
  | p :: t, k => if p.1 = k then hDel t k else p :: hDel t k

def hSet (h : Header) (k v : String) : Header := hDel h k ++ [(k, v)]

/-! `strconv.Atoi` as used by `getContentLength`: the error is discarded, so a
value that is not a decimal literal (optionally signed) yields 0.  (Go clamps
out-of-range literals to the int64 bounds; since the program only compares the
result against 256 and 16384, the unbounded value is observationally the
same.) -/

def digitsToNat (cs : List Char) : Nat :=
  cs.foldl (fun a c => a * 10 + (c.toNat - 48)) 0

def decimalLit (s : String) : Bool :=
  match s.data with
  | [] => false
  | c :: rest =>
    if c = '-' ∨ c = '+' then decide (rest ≠ []) && rest.all Char.isDigit
    else (c :: rest).all Char.isDigit

def atoi (s : String) : Int :=
  if decimalLit s then
    match s.data with
    | '-' :: rest => -(digitsToNat rest : Int)
    | '+' :: rest => (digitsToNat rest : Int)
    | cs => (digitsToNat cs : Int)
  else 0

/-! Go string helpers, modelled structurally: `strings.HasPrefix`,
`strings.TrimSpace` (restricted to the ASCII whitespace characters, which is
what occurs in header values) and `strings.Split` with separator ",". -/

def strStartsWith (s pre : String) : Bool := pre.data.isPrefixOf s.data

def isSpaceChar (c : Char) : Bool :=
  c = ' ' ∨ c = '\t' ∨ c = '\n' ∨ c = '\x0b' ∨ c = '\x0c' ∨ c = '\r'

def trimSpace (s : String) : String :=
  String.mk (((s.data.dropWhile isSpaceChar).reverse.dropWhile
    isSpaceChar).reverse)

def splitCommaAux : List Char → List Char → List String
  | [], acc => [String.mk acc.reverse]
  | c :: rest, acc =>
    if c = ',' then String.mk acc.reverse :: splitCommaAux rest []
    else splitCommaAux rest (c :: acc)

def splitComma (s : String) : List String := splitCommaAux s.data []

/-! The fused gzip + deflate compressor type (`compType`) and content
negotiation (`checkAcceptEncoding`). -/

inductive compType
  | none
  | gzip
  | deflate
deriving DecidableEq, Repr

/-- The `compStrings` array indexed by `compType`. -/
def compStrings : List String :=
  ["none", hdrContentEncodingGzip, hdrContentEncodingDeflate]

/-- `func (c compType) String() string`. -/
def compType.str : compType → String
  | .none => "none"
  | .gzip => hdrContentEncodingGzip
  | .deflate => hdrContentEncodingDeflate

/-- The inner loop of `checkAcceptEncoding`: scan `compStrings` with its
index, returning the index of the first name equal to `e`. -/
def matchComp : List String → Nat → String → Option Nat
  | [], _, _ => Option.none
  | name :: rest, i, e => if name = e then some i else matchComp rest (i + 1) e

def compOfIdx : Nat → compType
  | 0 => .none
  | 1 => .gzip
  | 2 => .deflate
  | _ => .none

/-- The outer loop of `checkAcceptEncoding` over the comma-split tokens. -/
def checkAcceptEncodingTokens : List String → compType
  | [] => .none
  | enc :: rest =>
    match matchComp compStrings 0 (trimSpace enc) with
    | some i => compOfIdx i
    | Option.none => checkAcceptEncodingTokens rest

/-- `checkAcceptEncoding`: split the Accept-Encoding value on commas, trim
each token, return the compType of the first token found in `compStrings`. -/
def checkAcceptEncoding (hdr : Header) : compType :=
  checkAcceptEncodingTokens (splitComma (hGet hdr hdrAcceptEncoding))

/-! Eligibility (`checkIsCompressable` and its helpers). -/

def checkHeaderHas (hdr : Header) (key : String) : Bool :=
  hGet hdr key ≠ ""

def getContentLength (hdr : Header) : Int :=
  atoi (hGet hdr hdrContentLength)

def isCompressableType (hdr : Header) : Bool :=
  let mtype := hGet hdr hdrContentType
  strStartsWith mtype "text/" ||
  strStartsWith mtype "image/svg" ||
  strStartsWith mtype "application/javascript" ||
  strStartsWith mtype "application/x-javascript"

def checkIsCompressable (code : Nat) (hdr : Header) : Bool :=
  code == 200 &&
  decide (CompressMinLength ≤ getContentLength hdr) &&
  !(checkHeaderHas hdr hdrTrailer) &&
  !(checkHeaderHas hdr hdrContentEncoding) &&
  isCompressableType hdr

/-! Errors: `Option String`; `errors.Wrap` prefixes a message and maps nil to
nil. -/

def wrapErr (msg : String) : Option String → Option String
  | Option.none => Option.none
  | some e => some (msg ++ ": " ++ e)

/-- `getCompressor`, reduced to its observable outcome: `none` means the
compressor opened successfully, `some e` is the wrapped open error.
`gzip.NewWriterLevel` and `flate.NewWriter` fail exactly when the level is
outside -2..9; the `default` branch fails with "Unknown compressor type". -/
def getCompressor (c : compType) (level : Int) : Option String :=
  match c with
  | .none => some "Opening compressor failed: Unknown compressor type"
  | _ =>
    if level < -2 ∨ 9 < level then
      some "Opening compressor failed: invalid compression level"
    else Option.none

/-! The underlying `http.ResponseWriter`: an event trace plus the mutable
header map.  `writeErrs` is the schedule of outcomes for successive physical
writes (`none` = success; an empty schedule means every write succeeds). -/

inductive RWEvent
  | commit (code : Nat) (hdr : Header)
  | bytes (p : List Nat)
  | flushed
deriving DecidableEq, Repr

structure RW where
  hdr : Header
  events : List RWEvent
  hasFlusher : Bool
  writeErrs : List (Option String)
deriving DecidableEq, Repr

def RW.writeHeader (rw : RW) (code : Nat) : RW :=
  { rw with events := rw.events ++ [.commit code rw.hdr] }

def RW.write (rw : RW) (p : List Nat) : RW × Nat × Option String :=
  match rw.writeErrs with
  | some e :: rest => ({ rw with writeErrs := rest }, 0, some e)
  | Option.none :: rest =>
    ({ rw with writeErrs := rest, events := rw.events ++ [.bytes p] },
     p.length, Option.none)
  | [] => ({ rw with events := rw.events ++ [.bytes p] }, p.length, Option.none)

/-- The `if flusher, ok := w.(http.Flusher); ok` pattern: flush only when the
underlying writer implements Flusher. -/
def RW.flush (rw : RW) : RW :=
  if rw.hasFlusher then { rw with events := rw.events ++ [.flushed] } else rw

/-! The streaming compressor is abstracted by its encoding behaviour: writes
accumulate input; `Flush` emits `encFlush` of the pending input and `Close`
emits `encClose` of the pending input (including any format footer) to the
sink the compressor was bound to at open time. -/

structure Codec where
  encFlush : List Nat → List Nat
  encClose : List Nat → List Nat

/-- Which writer `crw.w` currently denotes (`crw.ResponseWriter`, `&crw.buf`
or `crw.z`). -/
inductive WTarget
  | real
  | buffer
  | comp
deriving DecidableEq, Repr

/-! `compressResponseWriter`: the compressing response sink.  `zOpen` is
`crw.z != nil`; `zPending` is the input the compressor holds; `zSink` is the
writer the compressor was bound to when opened; `buf` is `crw.buf`
(`bufGrown` records the `buf.Grow(CompressMaxBuf)` call). -/

structure compressResponseWriter where
  rw : RW
  c : compType
  level : Int
  zOpen : Bool := false
  zPending : List Nat := []
  buf : List Nat := []
  bufGrown : Bool := false
  w : WTarget := .real
  zSink : WTarget := .real
  code : Nat := 0
  err : Option String := Option.none
  wroteHeader : Bool := false
  isBuffered : Bool := false
deriving DecidableEq, Repr

def newCompressResponseWriter (rw : RW) (c : compType) (level : Int) :
    compressResponseWriter :=
  { rw := rw, c := c, level := level }

/-- A compressor emission of `out` bytes to the sink it was bound to.  The
in-memory buffer never fails; the real writer follows its error schedule. -/
def compressResponseWriter.zEmit (crw : compressResponseWriter)
    (out : List Nat) : compressResponseWriter × Option String :=
  match crw.zSink with
  | .buffer => ({ crw with buf := crw.buf ++ out }, Option.none)
  | .real =>
    let r := crw.rw.write out
    ({ crw with rw := r.1 }, r.2.2)
  | .comp => (crw, Option.none)

/-- `WriteHeader`: decide, once, pass-through vs buffered vs streaming
compression, rewrite the headers, and forward the commit unless buffering. -/
def compressResponseWriter.WriteHeader (crw : compressResponseWriter)
    (code : Nat) : compressResponseWriter :=
  if crw.wroteHeader then crw
  else
    let crw1 : compressResponseWriter :=
      { crw with wroteHeader := true, w := WTarget.real }
    let hdr := crw1.rw.hdr
    let crw2 : compressResponseWriter :=
      if checkIsCompressable code hdr then
        let crwB :=
          if getContentLength hdr < CompressMaxBuf then
            { crw1 with bufGrown := true, w := WTarget.buffer, code := code,
                        isBuffered := true }
          else crw1
        let openErr := getCompressor crwB.c crwB.level
        let crwZ : compressResponseWriter :=
          { crwB with zOpen := openErr.isNone, err := openErr,
                      zSink := crwB.w, w := WTarget.comp }
        let hdr2 :=
          hSet (hSet (hDel hdr hdrContentLength)
                  hdrContentEncoding crwZ.c.str)
            hdrVary hdrAcceptEncoding
        { crwZ with rw := { crwZ.rw with hdr := hdr2 } }
      else crw1
    if ¬ crw2.isBuffered then { crw2 with rw := crw2.rw.writeHeader code }
    else crw2

/-- `Write`: sticky-error short circuit, implicit commit with status 200,
then forward to `crw.w`.  (When the compressor failed to open during the
implicit commit, Go would dereference a nil writer; that path is unreachable
through `New` and is modelled as an error.) -/
def compressResponseWriter.Write (crw : compressResponseWriter)
    (p : List Nat) : compressResponseWriter × Nat × Option String :=
  match crw.err with
  | some e => (crw, 0, some e)
  | Option.none =>
    let crw1 := if ¬ crw.wroteHeader then crw.WriteHeader 200 else crw
    match crw1.w with
    | .real =>
      let r := crw1.rw.write p
      let e2 := wrapErr "Write in compressResponseWriter failed" r.2.2
      ({ crw1 with rw := r.1, err := e2 }, r.2.1, e2)
    | .buffer =>
      ({ crw1 with buf := crw1.buf ++ p }, p.length, Option.none)
    | .comp =>
      if crw1.zOpen then
        ({ crw1 with zPending := crw1.zPending ++ p }, p.length, Option.none)
      else
        let e2 : Option String :=
          some "Write in compressResponseWriter failed: invalid writer"
        ({ crw1 with err := e2 }, 0, e2)

/-- `Flush`: sticky-error short circuit; flush the compressor if present,
then flush the underlying writer if it is a Flusher. -/
def compressResponseWriter.Flush (crw : compressResponseWriter)
    (cod : Codec) : compressResponseWriter :=
  if crw.err.isSome then crw
  else
    let crw1 :=
      if crw.zOpen then
        let r := crw.zEmit (cod.encFlush crw.zPending)
        { r.1 with zPending := [],
                   err := wrapErr "Flushing compressResponseWriter failed" r.2 }
      else crw
    { crw1 with rw := crw1.rw.flush }

/-- `Close`: sticky-error short circuit (before the deferred flush is even
installed); otherwise the underlying flush runs on every exit path.  Closing
the compressor emits its final bytes; in buffered mode the Content-Length is
set to the buffer's length, the deferred commit happens, and the buffer is
copied to the real writer. -/
def compressResponseWriter.Close (crw : compressResponseWriter)
    (cod : Codec) : compressResponseWriter × Option String :=
  if crw.err.isSome then (crw, crw.err)
  else if ¬ crw.zOpen then ({ crw with rw := crw.rw.flush }, Option.none)
  else
    let r := crw.zEmit (cod.encClose crw.zPending)
    let crw1 : compressResponseWriter :=
      { r.1 with zPending := [],
                 err := wrapErr "Closing compressResponseWriter failed" r.2 }
    if crw1.err.isSome then
      ({ crw1 with rw := crw1.rw.flush }, crw1.err)
    else if crw1.isBuffered then
      let hdr2 := hSet crw1.rw.hdr hdrContentLength (toString crw1.buf.length)
      let rw2 := (RW.writeHeader { crw1.rw with hdr := hdr2 } crw1.code)
      let r2 := rw2.write crw1.buf
      let crw2 : compressResponseWriter :=
        { crw1 with rw := r2.1, buf := [], err := r2.2.2 }
      ({ crw2 with rw := crw2.rw.flush }, r2.2.2)
    else
      ({ crw1 with rw := crw1.rw.flush }, Option.none)

/-! The handler is modelled as a straight-line script of response-sink calls;
`runRaw` interprets it against the bare `http.ResponseWriter` and `runCRW`
against the compressing sink (return values of Write are discarded, as an
opaque handler's reaction is not modelled). -/

inductive HCmd
  | setHeader (k v : String)
  | writeHeader (code : Nat)
  | write (p : List Nat)
  | flush
deriving DecidableEq, Repr

def runRaw : List HCmd → RW → RW
  | [], rw => rw
  | .setHeader k v :: rest, rw => runRaw rest { rw with hdr := hSet rw.hdr k v }
  | .writeHeader code :: rest, rw => runRaw rest (rw.writeHeader code)
  | .write p :: rest, rw => runRaw rest (rw.write p).1
  | .flush :: rest, rw => runRaw rest rw.flush

def runCRW (cod : Codec) : List HCmd → compressResponseWriter →
    compressResponseWriter
  | [], crw => crw
  | .setHeader k v :: rest, crw =>
    runCRW cod rest { crw with rw := { crw.rw with hdr := hSet crw.rw.hdr k v } }
  | .writeHeader code :: rest, crw => runCRW cod rest (crw.WriteHeader code)
  | .write p :: rest, crw => runCRW cod rest (crw.Write p).1
  | .flush :: rest, crw => runCRW cod rest (crw.Flush cod)

/-- `New`: negotiate once; with no codec, serve on the bare writer; otherwise
serve through a fresh compressing sink at `flate.BestCompression` and close
it afterwards (the close error is only logged). -/
def New (cod : Codec) (h : List HCmd) (reqHdr : Header) (rw : RW) : RW :=
  let comp := checkAcceptEncoding reqHdr
  if comp = compType.none then runRaw h rw
  else
    let crw := newCompressResponseWriter rw comp flateBestCompression
    let crw1 := runCRW cod h crw
    ((crw1.Close cod).1).rw

/-! Concrete fixtures used by witness theorems. -/

def hdrEx : Header := [(hdrContentType, "text/html"), (hdrContentLength, "1000")]

def rwEx : RW := { hdr := hdrEx, events := [], hasFlusher := true, writeErrs := [] }

def codId : Codec := { encFlush := id, encClose := id }

/-! Lemmas about the header operations. -/

theorem hGet_hDel_self (h : Header) (k : String) : hGet (hDel h k) k = "" := by
  induction h with
  | nil => simp [hDel, hGet]
  | cons a t ih =>
    by_cases hak : a.1 = k
    · simpa [hDel, hak] using ih
    · simpa [hDel, hGet, hak] using ih

theorem hGet_hSet_self (h : Header) (k v : String) : hGet (hSet h k v) k = v := by
  induction h with
  | nil => simp [hSet, hDel, hGet]
  | cons a t ih =>
    simp only [hSet, hDel] at ih ⊢
    by_cases hak : a.1 = k
    · simpa [hak] using ih
    · simpa [hGet, hak] using ih

theorem hGet_hSet_other (h : Header) (k v k' : String) (hne : k' ≠ k) :
    hGet (hSet h k v) k' = hGet h k' := by
  have hkk' : k ≠ k' := Ne.symm hne
  induction h with
  | nil => simp [hSet, hDel, hGet, hkk']
  | cons a t ih =>
    by_cases hak : a.1 = k
    · have h1 : hSet (a :: t) k v = hSet t k v := by simp [hSet, hDel, hak]
      have h2 : a.1 ≠ k' := by rw [hak]; exact hkk'
      rw [h1, ih]
      simp [hGet, h2]
    · have h1 : hSet (a :: t) k v = a :: hSet t k v := by
        simp [hSet, hDel, hak]
      rw [h1]
      by_cases hak' : a.1 = k'
      · simp [hGet, hak']
      · simp [hGet, hak', ih]

/-- The header map produced by `WriteHeader` in the compressing branches. -/
def mutatedHdr (h : Header) (s : String) : Header :=
  hSet (hSet (hDel h hdrContentLength) hdrContentEncoding s)
    hdrVary hdrAcceptEncoding

theorem hGet_mut_contentLength (h : Header) (s : String) :
    hGet (hSet (hSet (hDel h hdrContentLength) hdrContentEncoding s)
      hdrVary hdrAcceptEncoding) hdrContentLength = "" := by
  rw [hGet_hSet_other _ _ _ _ (by decide),
    hGet_hSet_other _ _ _ _ (by decide), hGet_hDel_self]

theorem hGet_mut_contentEncoding (h : Header) (s : String) :
    hGet (hSet (hSet (hDel h hdrContentLength) hdrContentEncoding s)
      hdrVary hdrAcceptEncoding) hdrContentEncoding = s := by
  rw [hGet_hSet_other _ _ _ _ (by decide), hGet_hSet_self]

theorem hGet_mut_vary (h : Header) (s : String) :
    hGet (hSet (hSet (hDel h hdrContentLength) hdrContentEncoding s)
      hdrVary hdrAcceptEncoding) hdrVary = hdrAcceptEncoding :=
  hGet_hSet_self _ _ _

/-- `WriteHeader` on a freshly constructed sink: the first header commit. -/
def firstCommit (rw : RW) (c : compType) (level : Int) (code : Nat) :
    compressResponseWriter :=
  (newCompressResponseWriter rw c level).WriteHeader code

/-- C1: the eligibility check returns true exactly when all five conditions
hold: status = 200, declared content length at least `CompressMinLength`
(with a non-decimal or absent Content-Length parsed as 0, hence ineligible),
content type starting with one of the four allowed prefixes, no Trailer
header, and no Content-Encoding header. -/
theorem c1_checkIsCompressable (code : Nat) (hdr : Header) :
    (checkIsCompressable code hdr = true ↔
      (code = 200 ∧
       CompressMinLength ≤ getContentLength hdr ∧
       (strStartsWith (hGet hdr hdrContentType) "text/" = true ∨
        strStartsWith (hGet hdr hdrContentType) "image/svg" = true ∨
        strStartsWith (hGet hdr hdrContentType) "application/javascript" = true ∨
        strStartsWith (hGet hdr hdrContentType) "application/x-javascript" = true) ∧
       hGet hdr hdrTrailer = "" ∧
       hGet hdr hdrContentEncoding = "")) ∧
    (decimalLit (hGet hdr hdrContentLength) = false → getContentLength hdr = 0) := by
  constructor
  · simp only [checkIsCompressable, checkHeaderHas, isCompressableType,
      Bool.and_eq_true, Bool.or_eq_true, decide_eq_true_eq, beq_iff_eq,
      Bool.not_eq_true', decide_eq_false_iff_not, not_not]
    tauto
  · intro hd
    simp [getContentLength, atoi, hd]

theorem c1_checkIsCompressable_witness :
    checkIsCompressable 200 hdrEx = true ∧ getContentLength [] = 0 := by
  refine ⟨(c1_checkIsCompressable 200 hdrEx).1.mpr (by decide), ?_⟩
  exact (c1_checkIsCompressable 200 []).2 (by decide)

/-- C2: the first header commit. If the response is ineligible the commit is
forwarded unchanged and compression stays inactive (the sink is the fresh
sink except for the committed flag and the forwarded commit event). If
eligible and the declared length is below `CompressMaxBuf`, the sink buffers:
the buffer is pre-grown, writes are routed to the compressor bound to the
buffer, the code is saved, and no event reaches the real sink yet. If
eligible and the length is at least `CompressMaxBuf`, the sink streams: the
compressor is bound to the real sink and the commit event is forwarded
immediately. In both compressing branches Content-Length is deleted and
Content-Encoding is set to the codec's canonical name in the headers before
any byte event, and in the streaming branch the committed snapshot already
carries those mutations. -/
theorem c2_first_commit (rw : RW) (c : compType) (level : Int) (code : Nat) :
    (checkIsCompressable code rw.hdr = false →
       firstCommit rw c level code =
         { newCompressResponseWriter rw c level with
             wroteHeader := true, w := WTarget.real,
             rw := rw.writeHeader code }) ∧
    (checkIsCompressable code rw.hdr = true →
       getContentLength rw.hdr < CompressMaxBuf →
       (firstCommit rw c level code).isBuffered = true ∧
       (firstCommit rw c level code).bufGrown = true ∧
       (firstCommit rw c level code).w = WTarget.comp ∧
       (firstCommit rw c level code).zSink = WTarget.buffer ∧
       (firstCommit rw c level code).code = code ∧
       (firstCommit rw c level code).wroteHeader = true ∧
       (firstCommit rw c level code).rw.events = rw.events ∧
       hGet (firstCommit rw c level code).rw.hdr hdrContentLength = "" ∧
       hGet (firstCommit rw c level code).rw.hdr hdrContentEncoding = c.str) ∧
    (checkIsCompressable code rw.hdr = true →
       CompressMaxBuf ≤ getContentLength rw.hdr →
       (firstCommit rw c level code).isBuffered = false ∧
       (firstCommit rw c level code).w = WTarget.comp ∧
       (firstCommit rw c level code).zSink = WTarget.real ∧
       (firstCommit rw c level code).wroteHeader = true ∧
       (firstCommit rw c level code).rw.hdr = mutatedHdr rw.hdr c.str ∧
       (firstCommit rw c level code).rw.events =
         rw.events ++ [RWEvent.commit code (mutatedHdr rw.hdr c.str)] ∧
       hGet (firstCommit rw c level code).rw.hdr hdrContentLength = "" ∧
       hGet (firstCommit rw c level code).rw.hdr hdrContentEncoding = c.str) := by
  refine ⟨?_, ?_, ?_⟩
  · intro hc
    simp [firstCommit, compressResponseWriter.WriteHeader,
      newCompressResponseWriter, hc]
  · intro hc hlen
    simp [firstCommit, compressResponseWriter.WriteHeader,
      newCompressResponseWriter, hc, hlen, mutatedHdr,
      hGet_mut_contentLength, hGet_mut_contentEncoding]
  · intro hc hlen
    simp [firstCommit, compressResponseWriter.WriteHeader,
      newCompressResponseWriter, hc, not_lt.mpr hlen, RW.writeHeader,
      mutatedHdr, hGet_mut_contentLength, hGet_mut_contentEncoding]

theorem c2_first_commit_witness :
    (firstCommit rwEx .gzip 9 200).isBuffered = true ∧
    (firstCommit rwEx .gzip 9 200).rw.events = rwEx.events ∧
    hGet (firstCommit rwEx .gzip 9 200).rw.hdr hdrContentEncoding =
      compType.gzip.str := by
  obtain ⟨h1, _, _, _, _, _, h7, _, h9⟩ :=
    (c2_first_commit rwEx .gzip 9 200).2.1 (by decide) (by decide)
  exact ⟨h1, h7, h9⟩

/-! Negotiation: the spec-side definition for the amended C3, and the
equivalence with the source's double loop. -/

def tokenChoice (t : String) : Option compType :=
  if t = "none" then some .none
  else if t = "gzip" then some .gzip
  else if t = "deflate" then some .deflate
  else Option.none

/-- Modelled from the spec's negotiation rule (split on commas, trim each
token, first match in client order), amended to scan the registry the code
actually scans: the full `compStrings` table including the entry "none", so
a token equal to "none" selects no-compression immediately. -/
def negotiateAmended (v : String) : compType :=
  ((((splitComma v).map trimSpace).findSome? tokenChoice).getD .none)

theorem checkTokens_eq (l : List String) :
    checkAcceptEncodingTokens l =
      (((l.map trimSpace).findSome? tokenChoice).getD .none) := by
  induction l with
  | nil => rfl
  | cons a t ih =>
    by_cases h1 : "none" = trimSpace a
    · simp [checkAcceptEncodingTokens, matchComp, compStrings, ← h1,
        tokenChoice, compOfIdx, hdrContentEncodingGzip,
        hdrContentEncodingDeflate]
    · by_cases h2 : "gzip" = trimSpace a
      · simp [checkAcceptEncodingTokens, matchComp, compStrings, ← h2,
          tokenChoice, compOfIdx, hdrContentEncodingGzip,
          hdrContentEncodingDeflate]
      · by_cases h3 : "deflate" = trimSpace a
        · simp [checkAcceptEncodingTokens, matchComp, compStrings, ← h3,
            tokenChoice, compOfIdx, hdrContentEncodingGzip,
            hdrContentEncodingDeflate]
        · have h1' : trimSpace a ≠ "none" := fun h => h1 h.symm
          have h2' : trimSpace a ≠ "gzip" := fun h => h2 h.symm
          have h3' : trimSpace a ≠ "deflate" := fun h => h3 h.symm
          simp [checkAcceptEncodingTokens, matchComp, compStrings, h1, h2, h3,
            h1', h2', h3', tokenChoice, hdrContentEncodingGzip,
            hdrContentEncodingDeflate, ih]

/-- C3 counterexample: for the header value "none,gzip", the trimmed tokens
include "gzip", yet negotiation returns no compression — the code scans the
whole `compStrings` table, and the first token matches its entry "none". -/
theorem c3_counterexample :
    ((splitComma (hGet [(hdrAcceptEncoding, "none,gzip")] hdrAcceptEncoding)).map
        trimSpace) = ["none", "gzip"] ∧
    checkAcceptEncoding [(hdrAcceptEncoding, "none,gzip")] = compType.none := by
  decide

/-- C3 amended: negotiation splits the encoding-preference value on commas,
trims each token, and returns the first token in client order that matches
an entry of the registry table ("none", "gzip", "deflate"), where matching
"none" yields no compression; it returns none when no token matches or the
header is absent or empty.  For "br, gzip" it still returns gzip. -/
theorem c3_negotiate (hdr : Header) :
    checkAcceptEncoding hdr = negotiateAmended (hGet hdr hdrAcceptEncoding) ∧
    checkAcceptEncoding [(hdrAcceptEncoding, "br, gzip")] = compType.gzip ∧
    checkAcceptEncoding [] = compType.none := by
  refine ⟨?_, by decide, by decide⟩
  simp [checkAcceptEncoding, negotiateAmended, checkTokens_eq]

/-! Fixtures for the Close/sticky-error claims. -/

def crwBufEx : compressResponseWriter :=
  { rw := { hdr := [(hdrContentType, "text/plain")], events := [],
            hasFlusher := false, writeErrs := [] },
    c := .gzip, level := 9, zOpen := true, zPending := [1, 2, 3], buf := [7],
    w := .comp, zSink := .buffer, code := 200, wroteHeader := true,
    isBuffered := true }

def crwErrEx : compressResponseWriter :=
  { rw := { hdr := [], events := [], hasFlusher := true, writeErrs := [] },
    c := .gzip, level := 9, err := some "boom", wroteHeader := true }

def crwFlushEx : compressResponseWriter :=
  { rw := { hdr := [], events := [], hasFlusher := false,
            writeErrs := [some "pipe broken"] },
    c := .gzip, level := 9, zOpen := true, zPending := [2], w := .comp,
    zSink := .real, wroteHeader := true }

/-- C4: finalizing a buffered compressed response with no prior error: the
compressor is closed first (its final output lands in the buffer), then
Content-Length is set to the exact byte length of the compressed buffer,
then the deferred status code is committed carrying that header, and only
then are the buffered bytes copied to the real sink; a copy failure becomes
the sticky error. -/
theorem c4_close_buffered (cod : Codec) (crw : compressResponseWriter)
    (he : crw.err = Option.none) (hz : crw.zOpen = true)
    (hb : crw.isBuffered = true) (hs : crw.zSink = WTarget.buffer) :
    (crw.rw.writeErrs = [] →
       (crw.Close cod).2 = Option.none ∧
       ((crw.Close cod).1).err = Option.none ∧
       hGet ((crw.Close cod).1).rw.hdr hdrContentLength =
         toString (crw.buf ++ cod.encClose crw.zPending).length ∧
       ((crw.Close cod).1).rw.events =
         crw.rw.events ++
           [RWEvent.commit crw.code
              (hSet crw.rw.hdr hdrContentLength
                (toString (crw.buf ++ cod.encClose crw.zPending).length)),
            RWEvent.bytes (crw.buf ++ cod.encClose crw.zPending)] ++
           (if crw.rw.hasFlusher then [RWEvent.flushed] else []) ∧
       ((crw.Close cod).1).buf = []) ∧
    (∀ e rest, crw.rw.writeErrs = some e :: rest →
       (crw.Close cod).2 = some e ∧ ((crw.Close cod).1).err = some e) := by
  constructor
  · intro hw
    by_cases hf : crw.rw.hasFlusher <;>
      simp [compressResponseWriter.Close, compressResponseWriter.zEmit,
        he, hz, hb, hs, hw, hf, wrapErr, RW.writeHeader, RW.write, RW.flush,
        hGet_hSet_self]
  · intro e rest hw
    simp [compressResponseWriter.Close, compressResponseWriter.zEmit,
      he, hz, hb, hs, hw, wrapErr, RW.writeHeader, RW.write, RW.flush]

theorem c4_close_buffered_witness :
    (crwBufEx.Close codId).2 = Option.none ∧
    hGet ((crwBufEx.Close codId).1).rw.hdr hdrContentLength =
      toString (crwBufEx.buf ++ codId.encClose crwBufEx.zPending).length := by
  obtain ⟨h1, _, h3, _⟩ := (c4_close_buffered codId crwBufEx rfl rfl rfl rfl).1 rfl
  exact ⟨h1, h3⟩

/-- After a commit on an error-free sink, an open compressor or a non-comp
write target implies the error field is still clear. -/
theorem writeHeader_err_clear (crw : compressResponseWriter) (code : Nat)
    (h : crw.err = Option.none) :
    ((crw.WriteHeader code).zOpen = true →
       (crw.WriteHeader code).err = Option.none) ∧
    ((crw.WriteHeader code).w = WTarget.buffer →
       (crw.WriteHeader code).err = Option.none) ∧
    ((crw.WriteHeader code).w = WTarget.real →
       (crw.WriteHeader code).err = Option.none) := by
  unfold compressResponseWriter.WriteHeader
  by_cases hw : crw.wroteHeader
  · simp [hw, h]
  · by_cases hc : checkIsCompressable code crw.rw.hdr
    · by_cases hl : getContentLength crw.rw.hdr < CompressMaxBuf <;>
        by_cases hbf : crw.isBuffered <;>
        simp [hw, hc, hl, hbf, h, Option.isNone_iff_eq_none, RW.writeHeader]
    · by_cases hbf : crw.isBuffered <;> simp [hw, hc, hbf, h, RW.writeHeader]

/-- C5: sticky-error discipline.  With an error recorded, Write, Flush and
Close are no-ops that return exactly the recorded error and leave the sink
untouched; on any sink, the error a Write or Close returns is precisely the
error recorded in the resulting sink state; and a compressor-flush failure
during Flush (the compressor's emission to the real sink failing — the only
fallible flush emission, since the in-memory buffer cannot fail) is recorded
in the sink, wrapped, while a Flush whose work all succeeds records
nothing. -/
theorem c5_sticky (cod : Codec) (crw crw2 : compressResponseWriter)
    (p q : List Nat) (e : String) :
    (crw.err = some e →
       crw.Write p = (crw, 0, some e) ∧
       crw.Flush cod = crw ∧
       crw.Close cod = (crw, some e)) ∧
    ((crw2.Write q).2.2 = ((crw2.Write q).1).err) ∧
    ((crw2.Close cod).2 = ((crw2.Close cod).1).err) ∧
    (∀ (crw3 : compressResponseWriter) (e3 : String)
       (rest : List (Option String)),
       crw3.err = Option.none → crw3.zOpen = true →
       crw3.zSink = WTarget.real →
       crw3.rw.writeErrs = some e3 :: rest →
       ((crw3.Flush cod).err =
         some ("Flushing compressResponseWriter failed: " ++ e3))) ∧
    (∀ (crw4 : compressResponseWriter),
       crw4.err = Option.none →
       (crw4.zOpen = false ∨ crw4.zSink = WTarget.buffer ∨
         crw4.rw.writeErrs = []) →
       ((crw4.Flush cod).err = Option.none)) := by
  refine ⟨?_, ?_, ?_, ?_, ?_⟩
  · intro h
    refine ⟨?_, ?_, ?_⟩
    · simp [compressResponseWriter.Write, h]
    · simp [compressResponseWriter.Flush, h]
    · simp [compressResponseWriter.Close, h]
  · rcases h2 : crw2.err with _ | e2
    · simp only [compressResponseWriter.Write, h2]
      obtain ⟨hz, hbuf, hreal⟩ :=
        writeHeader_err_clear crw2 200 h2
      by_cases hwh : crw2.wroteHeader
      · simp only [hwh, not_true, if_neg, ite_false]
        cases hw : crw2.w with
        | real => simp [RW.write]
        | buffer => simp [h2]
        | comp =>
          by_cases hzo : crw2.zOpen <;> simp [hzo, h2]
      · simp only [hwh, not_false_iff, if_pos, ite_true]
        cases hw : (crw2.WriteHeader 200).w with
        | real => simp [hw, RW.write]
        | buffer => simp [hw, hbuf hw]
        | comp =>
          by_cases hzo : (crw2.WriteHeader 200).zOpen
          · simp [hw, hzo, hz hzo]
          · simp [hw, hzo]
    · simp [compressResponseWriter.Write, h2]
  · rcases h2 : crw2.err with _ | e2
    · by_cases hz : crw2.zOpen
      · cases hs : crw2.zSink with
        | buffer =>
          simp [compressResponseWriter.Close, compressResponseWriter.zEmit,
            h2, hz, hs, wrapErr]
          by_cases hb : crw2.isBuffered <;>
            simp [hb, RW.writeHeader, RW.write, RW.flush]
        | real =>
          simp only [compressResponseWriter.Close, compressResponseWriter.zEmit,
            h2, hz, hs]
          cases hwe : crw2.rw.writeErrs with
          | nil =>
            simp [RW.write, hwe, wrapErr]
            by_cases hb : crw2.isBuffered <;>
              simp [hb, RW.writeHeader, RW.write, RW.flush]
          | cons o rest =>
            cases o with
            | none =>
              simp [RW.write, hwe, wrapErr]
              by_cases hb : crw2.isBuffered <;>
                simp [hb, RW.writeHeader, RW.write, RW.flush]
            | some e3 => simp [RW.write, hwe, wrapErr]
        | comp =>
          simp [compressResponseWriter.Close, compressResponseWriter.zEmit,
            h2, hz, hs, wrapErr]
          by_cases hb : crw2.isBuffered <;>
            simp [hb, RW.writeHeader, RW.write, RW.flush]
      · simp [compressResponseWriter.Close, h2, hz]
    · simp [compressResponseWriter.Close, h2]
  · intro crw3 e3 rest h3 hz3 hs3 hwe3
    simp [compressResponseWriter.Flush, compressResponseWriter.zEmit, h3,
      hz3, hs3, hwe3, RW.write, wrapErr, RW.flush]
  · intro crw4 h4 hd
    rcases hd with hz4 | hs4 | hwe4
    · simp [compressResponseWriter.Flush, h4, hz4]
    · by_cases hz : crw4.zOpen <;>
        simp [compressResponseWriter.Flush, compressResponseWriter.zEmit,
          h4, hz, hs4, wrapErr]
    · by_cases hz : crw4.zOpen
      · cases hs : crw4.zSink <;>
          simp [compressResponseWriter.Flush, compressResponseWriter.zEmit,
            h4, hz, hs, hwe4, RW.write, wrapErr]
      · simp [compressResponseWriter.Flush, h4, hz]

theorem c5_sticky_witness :
    (crwErrEx.Write [1] = (crwErrEx, 0, some "boom") ∧
     crwErrEx.Flush codId = crwErrEx ∧
     crwErrEx.Close codId = (crwErrEx, some "boom")) ∧
    (crwFlushEx.Flush codId).err =
      some ("Flushing compressResponseWriter failed: " ++ "pipe broken") := by
  refine ⟨(c5_sticky codId crwErrEx crwErrEx [1] [1] "boom").1 rfl, ?_⟩
  exact (c5_sticky codId crwErrEx crwErrEx [1] [1] "boom").2.2.2.1
    crwFlushEx "pipe broken" [] rfl rfl rfl rfl

def rwVaryEx : RW :=
  { hdr := [(hdrVary, "Cookie"), (hdrContentType, "text/html"),
            (hdrContentLength, "1000")],
    events := [], hasFlusher := false, writeErrs := [] }

/-- C6 counterexample: a handler-set Vary value "Cookie" on an eligible
response is not preserved alongside the negotiation header name — after the
first commit the Vary header is exactly "Accept-Encoding" (the code calls
`Set`, which replaces, not `Add`). -/
theorem c6_counterexample :
    hGet rwVaryEx.hdr hdrVary = "Cookie" ∧
    checkIsCompressable 200 rwVaryEx.hdr = true ∧
    hGet (firstCommit rwVaryEx .gzip 9 200).rw.hdr hdrVary =
      hdrAcceptEncoding ∧
    hGet (firstCommit rwVaryEx .gzip 9 200).rw.hdr hdrVary ≠
      "Cookie, Accept-Encoding" := by
  decide

/-- C6 amended: when compression activates for a request, the sink sets the
response's Vary header to the negotiation header's name (Accept-Encoding),
replacing any Vary value the handler had set before the commit. -/
theorem c6_vary (rw : RW) (c : compType) (level : Int) (code : Nat)
    (hc : checkIsCompressable code rw.hdr = true) :
    hGet (firstCommit rw c level code).rw.hdr hdrVary = hdrAcceptEncoding := by
  unfold firstCommit compressResponseWriter.WriteHeader
    newCompressResponseWriter
  by_cases hl : getContentLength rw.hdr < CompressMaxBuf
  · simp [hc, hl, hGet_mut_vary]
  · simp [hc, hl, RW.writeHeader, hGet_mut_vary]

theorem c6_vary_witness :
    hGet (firstCommit rwEx .gzip 9 200).rw.hdr hdrVary = hdrAcceptEncoding :=
  c6_vary rwEx .gzip 9 200 (by decide)

/-- C7: Write on the sink.  With a sticky error recorded it returns that
error immediately and forwards nothing.  On a fresh sink it first performs
the implicit commit with status 200 (whenever that commit succeeds in
opening the compressor, or no compression applies, the write behaves exactly
as a write after an explicit commit); the bytes are then forwarded to the
active sink — directly to the real sink when not compressing (with any
resulting error wrapped, recorded as sticky and returned), or into the
compressor when compressing. -/
theorem c7_write (rw : RW) (c : compType) (level : Int) (p : List Nat) :
    (∀ (crw2 : compressResponseWriter) (e : String), crw2.err = some e →
       crw2.Write p = (crw2, 0, some e)) ∧
    ((checkIsCompressable 200 rw.hdr = false ∨
        getCompressor c level = Option.none) →
       (newCompressResponseWriter rw c level).Write p =
         (firstCommit rw c level 200).Write p) ∧
    (checkIsCompressable 200 rw.hdr = false →
       ∀ e rest, rw.writeErrs = some e :: rest →
         ((newCompressResponseWriter rw c level).Write p).2.2 =
           some ("Write in compressResponseWriter failed: " ++ e) ∧
         (((newCompressResponseWriter rw c level).Write p).1).err =
           some ("Write in compressResponseWriter failed: " ++ e)) ∧
    (checkIsCompressable 200 rw.hdr = false → rw.writeErrs = [] →
       ((newCompressResponseWriter rw c level).Write p).2 =
         (p.length, Option.none) ∧
       (((newCompressResponseWriter rw c level).Write p).1).rw.events =
         rw.events ++ [RWEvent.commit 200 rw.hdr, RWEvent.bytes p]) ∧
    (checkIsCompressable 200 rw.hdr = true →
       getCompressor c level = Option.none →
       (((newCompressResponseWriter rw c level).Write p).1).zPending = p ∧
       ((newCompressResponseWriter rw c level).Write p).2 =
         (p.length, Option.none)) := by
  refine ⟨?_, ?_, ?_, ?_, ?_⟩
  · intro crw2 e h
    simp [compressResponseWriter.Write, h]
  · intro h
    rcases h with h | h
    · simp [compressResponseWriter.Write, firstCommit,
        compressResponseWriter.WriteHeader, newCompressResponseWriter, h]
    · by_cases hc : checkIsCompressable 200 rw.hdr
      · by_cases hl : getContentLength rw.hdr < CompressMaxBuf <;>
          simp [compressResponseWriter.Write, firstCommit,
            compressResponseWriter.WriteHeader, newCompressResponseWriter,
            hc, hl, h, RW.writeHeader]
      · simp [compressResponseWriter.Write, firstCommit,
          compressResponseWriter.WriteHeader, newCompressResponseWriter,
          hc, h, RW.writeHeader]
  · intro hc e rest hw
    simp [compressResponseWriter.Write, compressResponseWriter.WriteHeader,
      newCompressResponseWriter, hc, RW.writeHeader, RW.write, hw, wrapErr]
  · intro hc hw
    simp [compressResponseWriter.Write, compressResponseWriter.WriteHeader,
      newCompressResponseWriter, hc, RW.writeHeader, RW.write, hw, wrapErr]
  · intro hc hz
    by_cases hl : getContentLength rw.hdr < CompressMaxBuf <;>
      simp [compressResponseWriter.Write, compressResponseWriter.WriteHeader,
        newCompressResponseWriter, hc, hl, hz, RW.writeHeader]

theorem c7_write_witness :
    (((newCompressResponseWriter rwEx .gzip 9).Write [1, 2]).1).zPending =
      [1, 2] ∧
    ((newCompressResponseWriter rwEx .gzip 9).Write [1, 2]).2 =
      (2, Option.none) := by
  obtain ⟨h1, h2⟩ :=
    (c7_write rwEx .gzip 9 [1, 2]).2.2.2.2 (by decide) rfl
  exact ⟨h1, h2⟩

theorem getLast?_snoc {α : Type} (l : List α) (a : α) :
    (l ++ [a]).getLast? = some a := by
  rw [List.getLast?_append_cons]
  rfl

/-- C8 counterexample: with a sticky error already recorded and a real sink
that supports flushing, Close returns the recorded error immediately and
appends no flush event — the early return happens before the deferred flush
is installed. -/
theorem c8_counterexample :
    crwErrEx.rw.hasFlusher = true ∧
    crwErrEx.Close codId = (crwErrEx, some "boom") ∧
    ((crwErrEx.Close codId).1).rw.events = [] := by
  decide

def crwStreamEx : compressResponseWriter :=
  { rw := { hdr := [], events := [], hasFlusher := true,
            writeErrs := [some "neterr"] },
    c := .deflate, level := 9, zOpen := true, zPending := [1], w := .comp,
    zSink := .real, wroteHeader := true }

/-- C8 amended: when no sticky error is recorded at entry, Close attempts a
best-effort flush of the real sink on every path — compression never
activated, compressor close failing, buffered or streaming finalization —
so the last event the real sink sees is the flush; but when a sticky error
is already recorded before Close is called, Close returns it without
flushing. -/
theorem c8_close_flush (cod : Codec) (crw : compressResponseWriter)
    (he : crw.err = Option.none) (hf : crw.rw.hasFlusher = true) :
    (((crw.Close cod).1).rw.events).getLast? = some RWEvent.flushed := by
  by_cases hz : crw.zOpen
  · cases hs : crw.zSink with
    | buffer =>
      by_cases hb : crw.isBuffered <;>
        cases hwe : crw.rw.writeErrs with
        | nil =>
          simp [compressResponseWriter.Close, compressResponseWriter.zEmit,
            he, hz, hs, hb, hwe, wrapErr, RW.writeHeader, RW.write, RW.flush,
            hf, getLast?_snoc]
        | cons o rest =>
          cases o <;>
            simp [compressResponseWriter.Close, compressResponseWriter.zEmit,
              he, hz, hs, hb, hwe, wrapErr, RW.writeHeader, RW.write,
              RW.flush, hf, getLast?_snoc]
    | real =>
      cases hwe : crw.rw.writeErrs with
      | nil =>
        by_cases hb : crw.isBuffered <;>
          simp [compressResponseWriter.Close, compressResponseWriter.zEmit,
            he, hz, hs, hb, hwe, wrapErr, RW.writeHeader, RW.write, RW.flush,
            hf, getLast?_snoc]
      | cons o rest =>
        cases o with
        | some e =>
          simp [compressResponseWriter.Close, compressResponseWriter.zEmit,
            he, hz, hs, hwe, wrapErr, RW.writeHeader, RW.write, RW.flush,
            hf, getLast?_snoc]
        | none =>
          by_cases hb : crw.isBuffered
          · cases rest with
            | nil =>
              simp [compressResponseWriter.Close, compressResponseWriter.zEmit,
                he, hz, hs, hb, hwe, wrapErr, RW.writeHeader, RW.write,
                RW.flush, hf, getLast?_snoc]
            | cons o2 r2 =>
              cases o2 <;>
                simp [compressResponseWriter.Close,
                  compressResponseWriter.zEmit, he, hz, hs, hb, hwe, wrapErr,
                  RW.writeHeader, RW.write, RW.flush, hf, getLast?_snoc]
          · simp [compressResponseWriter.Close, compressResponseWriter.zEmit,
              he, hz, hs, hb, hwe, wrapErr, RW.writeHeader, RW.write,
              RW.flush, hf, getLast?_snoc]
    | comp =>
      by_cases hb : crw.isBuffered <;>
        cases hwe : crw.rw.writeErrs with
        | nil =>
          simp [compressResponseWriter.Close, compressResponseWriter.zEmit,
            he, hz, hs, hb, hwe, wrapErr, RW.writeHeader, RW.write, RW.flush,
            hf, getLast?_snoc]
        | cons o rest =>
          cases o <;>
            simp [compressResponseWriter.Close, compressResponseWriter.zEmit,
              he, hz, hs, hb, hwe, wrapErr, RW.writeHeader, RW.write,
              RW.flush, hf, getLast?_snoc]
  · simp [compressResponseWriter.Close, he, hz, RW.flush, hf, getLast?_snoc]

theorem c8_close_flush_witness :
    (((crwStreamEx.Close codId).1).rw.events).getLast? = some RWEvent.flushed :=
  c8_close_flush codId crwStreamEx rfl rfl

theorem noGzipDeflate_none (l : List String)
    (h : ∀ tok ∈ l, trimSpace tok ≠ "gzip" ∧ trimSpace tok ≠ "deflate") :
    checkAcceptEncodingTokens l = compType.none := by
  induction l with
  | nil => rfl
  | cons a t ih =>
    obtain ⟨h1, h2⟩ := h a (List.mem_cons_self a t)
    have ht := fun tok htok => h tok (List.mem_cons_of_mem a htok)
    by_cases h0 : "none" = trimSpace a
    · simp [checkAcceptEncodingTokens, matchComp, compStrings, ← h0,
        compOfIdx, hdrContentEncodingGzip, hdrContentEncodingDeflate]
    · have h1' : ¬("gzip" = trimSpace a) := fun hh => h1 hh.symm
      have h2' : ¬("deflate" = trimSpace a) := fun hh => h2 hh.symm
      simp [checkAcceptEncodingTokens, matchComp, compStrings, h0, h1', h2',
        hdrContentEncodingGzip, hdrContentEncodingDeflate, ih ht]

def cmdsEx : List HCmd :=
  [.setHeader hdrContentType "text/plain", .writeHeader 200, .write [5, 6]]

/-- C9: when no trimmed token of the encoding-preference header equals
"gzip" or "deflate" (including an absent or empty header), negotiation
yields no codec and the interceptor serves the request on the bare real
sink: the delivered events and headers are exactly those of the handler run
uncompressed, so nothing is added. -/
theorem c9_passthrough (cod : Codec) (cmds : List HCmd) (reqHdr : Header)
    (rw : RW)
    (hno : ∀ tok ∈ splitComma (hGet reqHdr hdrAcceptEncoding),
        trimSpace tok ≠ "gzip" ∧ trimSpace tok ≠ "deflate") :
    checkAcceptEncoding reqHdr = compType.none ∧
    New cod cmds reqHdr rw = runRaw cmds rw := by
  have h : checkAcceptEncoding reqHdr = compType.none :=
    noGzipDeflate_none _ hno
  refine ⟨h, ?_⟩
  simp [New, h]

theorem c9_passthrough_witness :
    checkAcceptEncoding [(hdrAcceptEncoding, "br, identity")] =
      compType.none ∧
    New codId cmdsEx [(hdrAcceptEncoding, "br, identity")] rwEx =
      runRaw cmdsEx rwEx :=
  c9_passthrough codId cmdsEx [(hdrAcceptEncoding, "br, identity")] rwEx
    (by decide)

/-- C10: `WriteHeader` returns nothing, so a compressor-open failure at
commit time is not reported to the caller: for an eligible response the
commit still completes — the sink is marked committed, Content-Length is
already deleted and Content-Encoding already set — and the failure is
observable only as the sticky error returned by the next Write or Close on
the same sink, which perform no further work. -/
theorem c10_open_failure (rw : RW) (c : compType) (level : Int) (code : Nat)
    (p : List Nat) (e : String) (cod : Codec)
    (hc : checkIsCompressable code rw.hdr = true)
    (hf : getCompressor c level = some e) :
    (firstCommit rw c level code).wroteHeader = true ∧
    (firstCommit rw c level code).err = some e ∧
    hGet (firstCommit rw c level code).rw.hdr hdrContentLength = "" ∧
    hGet (firstCommit rw c level code).rw.hdr hdrContentEncoding = c.str ∧
    (firstCommit rw c level code).Write p =
      (firstCommit rw c level code, 0, some e) ∧
    (firstCommit rw c level code).Close cod =
      (firstCommit rw c level code, some e) := by
  have herr : (firstCommit rw c level code).err = some e := by
    unfold firstCommit compressResponseWriter.WriteHeader
      newCompressResponseWriter
    by_cases hl : getContentLength rw.hdr < CompressMaxBuf <;>
      simp [hc, hl, hf, RW.writeHeader]
  have hwh : (firstCommit rw c level code).wroteHeader = true := by
    unfold firstCommit compressResponseWriter.WriteHeader
      newCompressResponseWriter
    by_cases hl : getContentLength rw.hdr < CompressMaxBuf <;>
      simp [hc, hl, RW.writeHeader]
  have hcl : hGet (firstCommit rw c level code).rw.hdr hdrContentLength = "" := by
    unfold firstCommit compressResponseWriter.WriteHeader
      newCompressResponseWriter
    by_cases hl : getContentLength rw.hdr < CompressMaxBuf <;>
      simp [hc, hl, RW.writeHeader, hGet_mut_contentLength]
  have hce : hGet (firstCommit rw c level code).rw.hdr hdrContentEncoding =
      c.str := by
    unfold firstCommit compressResponseWriter.WriteHeader
      newCompressResponseWriter
    by_cases hl : getContentLength rw.hdr < CompressMaxBuf <;>
      simp [hc, hl, RW.writeHeader, hGet_mut_contentEncoding]
  refine ⟨hwh, herr, hcl, hce, ?_, ?_⟩
  · simp [compressResponseWriter.Write, herr]
  · simp [compressResponseWriter.Close, herr]

theorem c10_open_failure_witness :
    (firstCommit rwEx .gzip 100 200).err =
      some "Opening compressor failed: invalid compression level" ∧
    (firstCommit rwEx .gzip 100 200).Write [1] =
      (firstCommit rwEx .gzip 100 200, 0,
       some "Opening compressor failed: invalid compression level") := by
  obtain ⟨_, h2, _, _, h5, _⟩ :=
    c10_open_failure rwEx .gzip 100 200 [1]
      "Opening compressor failed: invalid compression level" codId
      (by decide) rfl
  exact ⟨h2, h5⟩
